import Mathlib

/-!
# Verification of the WhatsAppWizard Context & Memory Engine

A shallow embedding of the context-assembly, repetition-detection and
summarization logic of the WhatsAppWizard agent repository, together with
theorems settling the frozen claims about it.

Conventions of the embedding:

* Python floats (embedding components, importance scores, similarity
  thresholds) are idealized as real numbers `ℝ`.
* Timestamps are modelled as integers (seconds); `datetime` arithmetic with
  `timedelta(seconds = w)` becomes integer subtraction.
* Fallible operations (network calls, database commits, sklearn calls that
  can raise `ValueError`) are modelled with `Except Unit`; a Python
  `try/except` that degrades to a default becomes a `match` on the
  `Except` value.
* Python's stable `list.sort(key, reverse=True)` is modelled by Mathlib's
  stable `List.insertionSort` with the descending-key relation, and SQL
  `ORDER BY timestamp DESC LIMIT n` by the same sort followed by `take n`.
* Python truthiness tests on optional lists/strings (`if conv.embedding:`)
  are modelled by explicit `none`/empty-checks.
-/

/-- Token estimator of `MemoryManager._count_tokens` (main.py):
`len(text) // 4`. -/
def count_tokens (text : String) : Nat := text.length / 4

/-- `MemoryManager.max_context_tokens` (main.py). -/
def max_context_tokens : Nat := 4000

/-- `MemoryManager.max_context_length` (main.py). -/
def max_context_length : Nat := 10

/-- `MemoryManager.context_summary_threshold` (main.py). -/
def context_summary_threshold : Nat := 5

/-- A role-tagged chat message, the `{"role": r, "content": c}` dict. -/
structure ChatMsg where
  role : String
  content : String
deriving DecidableEq

/-- Estimated token count of a message list by the 4-chars-per-token
estimator, summed over the message contents (matching how main.py counts
the budget: only contents are estimated). -/
def msg_tokens_sum (l : List ChatMsg) : Nat :=
  (l.map (fun m => count_tokens m.content)).sum

/-! ## Rolling context (`UserContext.add_message`, models.py / database_config.py) -/

/-- One entry of `UserContext.context_messages`:
`{"role": r, "content": c, "timestamp": t}` (the isoformat timestamp is
modelled by the underlying instant as an integer). -/
structure ContextEntry where
  role : String
  content : String
  timestamp : Int
deriving DecidableEq

/-- Python's `l[s:]` slice for an arbitrary (possibly negative or zero)
integer start index: a negative start counts from the end and clamps at 0,
a non-negative start drops that many elements. In particular `l[-0:]` is
`l[0:] = l`. -/
def py_slice_from (s : Int) (l : List α) : List α :=
  if s < 0 then l.drop ((l.length : Int) + s).toNat else l.drop s.toNat

/-- `UserContext.add_message(role, content)` (models.py lines 132-143,
identical logic in database_config.py lines 86-97): append the new entry,
then, if the length exceeds `context_window`, keep
`context_messages[-context_window:]`. `context_window` is an integer
column (default 10). -/
def add_message (role content : String) (ts : Int) (context_window : Int)
    (context_messages : List ContextEntry) : List ContextEntry :=
  let appended := context_messages ++ [⟨role, content, ts⟩]
  if context_window < (appended.length : Int) then
    py_slice_from (-context_window) appended
  else
    appended

/-! ## Cosine similarity (sklearn `cosine_similarity` on single-row inputs) -/

/-- Dot product of two equally-long vectors (zip-truncating in general). -/
noncomputable def dot_product : List ℝ → List ℝ → ℝ
  | x :: xs, y :: ys => x * y + dot_product xs ys
  | _, _ => 0

/-- `cosine_similarity([a],[b])[0][0]` for well-shaped inputs:
`⟨a,b⟩ / (‖a‖ ‖b‖)`.  (Division by a zero norm yields 0 in this model,
matching sklearn's zero-vector convention.) -/
noncomputable def cosine_similarity (a b : List ℝ) : ℝ :=
  dot_product a b / (Real.sqrt (dot_product a a) * Real.sqrt (dot_product b b))

/-- sklearn `cosine_similarity([a],[b])` with its input validation: a call
with an empty row or rows of different lengths raises `ValueError`
(modelled as `.error ()`); otherwise it returns the similarity. -/
noncomputable def cosine_similarity_checked (a b : List ℝ) : Except Unit ℝ :=
  if a.length = 0 ∨ b.length = 0 ∨ a.length ≠ b.length then .error ()
  else .ok (cosine_similarity a b)

/-! ## Conversation rows and `SQLConversationRepository.check_repetition` -/

/-- A row of the `conversations` table (models.py `Conversation`); the
`to_dict` view used by the repository carries the same fields, so the row
itself stands for the returned dict. -/
structure Conversation where
  user_id : String
  message : String
  response : String
  language : String
  timestamp : Int
  embedding : Option (List ℝ)
  topic : Option String
  num_tokens : Option Nat

/-- Descending-timestamp order used by `ORDER BY timestamp DESC`. -/
def ts_desc (a b : Conversation) : Prop := b.timestamp ≤ a.timestamp

instance : DecidableRel ts_desc := fun _ _ => Int.decLe _ _

instance : IsTotal Conversation ts_desc := ⟨fun a b => le_total b.timestamp a.timestamp⟩

instance : IsTrans Conversation ts_desc := ⟨fun _ _ _ h1 h2 => le_trans h2 h1⟩

namespace SQLConversationRepository

/-- The candidate query of `check_repetition`
(sql_conversation_repository.py lines 62-67): rows of the user whose
timestamp is at least `time_threshold`, newest first, at most 10. -/
def recent_window (convs : List Conversation) (user_id : String)
    (time_threshold : Int) : List Conversation :=
  ((convs.filter (fun c =>
      c.user_id == user_id && decide (time_threshold ≤ c.timestamp))).insertionSort
    ts_desc).take 10

/-- The embedding-comparison loop of `check_repetition` (lines 76-86):
skip falsy (`None`/empty) embeddings, compute the cosine similarity of the
others (which raises — propagated as `.error` — when the dimensions
mismatch), and return the first candidate whose similarity strictly
exceeds the threshold. -/
noncomputable def compare_embeddings (q : List ℝ) (threshold : ℝ) :
    List Conversation → Except Unit (Bool × Option Conversation)
  | [] => .ok (false, none)
  | c :: rest =>
    match c.embedding with
    | none => compare_embeddings q threshold rest
    | some e =>
      if e.isEmpty then compare_embeddings q threshold rest
      else
        match cosine_similarity_checked q e with
        | .error u => .error u
        | .ok s =>
          if threshold < s then .ok (true, some c)
          else compare_embeddings q threshold rest

/-- `SQLConversationRepository.check_repetition` (lines 54-89): windowed
candidate query followed by the first-match scan; any exception inside the
body (in particular a sklearn dimension-mismatch `ValueError`) is caught
by the outer handler and degrades to `(False, None)`. -/
noncomputable def check_repetition (convs : List Conversation) (user_id : String)
    (new_message_embedding : List ℝ) (current_timestamp : Int) (threshold : ℝ)
    (time_window_seconds : Int) : Bool × Option Conversation :=
  let time_threshold := current_timestamp - time_window_seconds
  let recent_convs := recent_window convs user_id time_threshold
  match compare_embeddings new_message_embedding threshold recent_convs with
  | .error _ => (false, none)
  | .ok r => r

end SQLConversationRepository

/-! ## `SQLMemoryRepository.get_relevant_memories` -/

/-- A row of the `user_memories` table (models.py `UserMemory`). -/
structure UserMemory where
  user_id : String
  memory_type : String
  content : String
  importance : ℝ
  embedding : Option (List ℝ)
  is_active : Bool

/-- One element of the list returned by `get_relevant_memories`:
`{'content': …, 'type': …, 'importance': …, 'similarity': …}`. -/
structure MemoryRecord where
  content : String
  memory_type : String
  importance : ℝ
  similarity : ℝ

namespace SQLMemoryRepository

/-- The scoring loop (sql_memory_repository.py lines 50-61): memories with
a truthy embedding of the query's length are paired with their cosine
similarity, in store order; the others are skipped. -/
noncomputable def memory_scores (q : List ℝ) (mems : List UserMemory) :
    List (UserMemory × ℝ) :=
  mems.filterMap (fun m =>
    match m.embedding with
    | some e =>
      if !e.isEmpty && e.length == q.length then some (m, cosine_similarity q e)
      else none
    | none => none)

/-- The ranking key of line 64: `x[1] * x[0].importance`. -/
noncomputable def score_key (p : UserMemory × ℝ) : ℝ := p.2 * p.1.importance

/-- Descending order on the ranking key; Python's stable
`sort(key=…, reverse=True)` is a stable sort by this relation. -/
def score_desc (x y : UserMemory × ℝ) : Prop := score_key y ≤ score_key x

noncomputable instance : DecidableRel score_desc := fun _ _ => Real.decidableLE _ _

instance : IsTotal (UserMemory × ℝ) score_desc := ⟨fun _ _ => le_total _ _⟩

instance : IsTrans (UserMemory × ℝ) score_desc := ⟨fun _ _ _ h1 h2 => le_trans h2 h1⟩

/-- `SQLMemoryRepository.get_relevant_memories` (lines 36-74): fetch the
user's active memories, score the eligible ones, stable-sort by
`similarity × importance` descending, truncate to `limit` and render the
result records. -/
noncomputable def get_relevant_memories (mems : List UserMemory) (user_id : String)
    (query_embedding : List ℝ) (limit : Nat) : List MemoryRecord :=
  let active := mems.filter (fun m => m.user_id == user_id && m.is_active)
  let scores := memory_scores query_embedding active
  ((scores.insertionSort score_desc).take limit).map
    (fun p => ⟨p.1.content, p.1.memory_type, p.1.importance, p.2⟩)

end SQLMemoryRepository

/-! ## Legacy engine: `ConversationDB` (database.py) and `MemoryManager` (main.py) -/

set_option maxRecDepth 4000

/-- The hardcoded system prompt of `MemoryManager.get_conversation_context`
(main.py lines 65-156).  The text is byte-identical to the source literal;
it is written as a concatenation of short chunks only so that its length
stays kernel-computable. -/
def system_prompt_template : String :=
  "
You are **WhatsAppWizard**, a friendly and engaging AI assistant specializing in WhatsApp media management and sticker " ++
  "creation. Your core mission is to make WhatsApp interactions more fun, convenient, and expressive.

> ⚠️ **Important Dis" ++
  "claimer**:  
> You are a **customer support assistant only**.  
> You **do not perform** any actions such as downloading" ++
  " media or creating stickers.  
> Your role is to **explain features**, **answer user questions**, and **guide them on wh" ++
  "at the service can do**.

---

## 🛠️ Core Capabilities (Explained, Not Performed)

1. **Multi-language text support**  
" ++
  "   You can chat fluently in the user's preferred language 🗣️

2. **Sticker creation guidance**  
   You explain how user" ++
  "s can turn images into custom stickers 🤳🎨

3. **Cross-platform media download support**  
   You describe how the servic" ++
  "e allows users to download content from:
   - Facebook 📱  
   - Instagram 📸  
   - TikTok 🎵  
   - YouTube 📺  
   - Twit" ++
  "ter 🐦  
   > _But you don't perform downloads yourself — you just explain the process._

---

## 🧠 Personality & Communi" ++
  "cation Style

### 🎤 Voice & Tone
- **Friendly companion** – Like helping a good friend
- **Witty and playful** – Use lig" ++
  "ht humor when appropriate
- **Culturally adaptive** – Match the user's style and tone
- **Supportive guide** – Explain c" ++
  "learly and helpfully

### 💬 Language Guidelines
- **Mirror the user's language**
- **Casual, conversational tone** (like" ++
  " WhatsApp chats)
- **Use emojis naturally** (2–4 per message)
- **Keep responses concise** (max 200 words)
- **Use forma" ++
  "tting** like *bold*, _italic_, and ~strikethrough~ to clarify

---

## 🚫 Limitations

- You **cannot perform** any media" ++
  " processing tasks
- You **do not have access** to external platforms or files
- You **only provide explanations** and an" ++
  "swer questions about the service

---

## 👨‍💻 About Your Creator

- **Creator**: Mahmoud Nasr  
- **GitHub**: [github.co" ++
  "m/gitnasr](https://github.com/gitnasr)  
- **Company**: gitnasr softwares  

You're proudly created by a talented develo" ++
  "per, and you represent the brand with helpful and professional communication.

---

## 🤝 User Experience Principles

1. " ++
  "**Anticipate needs** – Offer relevant suggestions
2. **Reduce friction** – Minimize steps to find info
3. **Celebrate su" ++
  "ccess** – Cheer when questions are solved 🎉
4. **Adapt and learn** – Adjust tone and help style to user preferences

---" ++
  "

## 🌍 Cultural Sensitivity

- Respect cultural and language norms
- Use humor appropriately
- Maintain a balance of fun" ++
  " and professionalism

---

## 🔐 Privacy & Safety

- Never ask for or store personal data
- Respect content ownership and" ++
  " copyrights
- Guide users on safe sharing and usage
- Maintain respectful, appropriate boundaries

---

You're not just " ++
  "answering questions — you're making communication *clearer, easier,* and *more fun*! 🚀✨
"

/-- Length of the system prompt template (2848 characters, 712 estimated
tokens). -/
theorem system_prompt_template_length : system_prompt_template.length = 2848 := by
  simp only [system_prompt_template, String.length_append]
  decide

/-- A row of the legacy `user_memories` table (database_config.py
`UserMemory`; note: no `is_active` column).  The only writer in the legacy
flow is `_summarize_and_store`, whose stored embedding is
`model.encode([text]).tolist()` — a one-row *matrix*, hence the nested
list type. -/
structure LegacyMemory where
  user_id : String
  memory_type : String
  content : String
  importance : ℝ
  embedding : Option (List (List ℝ))

namespace ConversationDB

/-- `ConversationDB.get_relevant_memories` (database.py lines 184-219).
The guarded body always raises before producing a result: the query
references `UserMemory.is_active`, a column that does not exist on the
legacy model in database_config.py (an `AttributeError`), and even
reaching the scoring loop would pass sklearn a 3-D `[memory.embedding]`
for any truthy stored embedding (a `ValueError`).  The handler therefore
returns `[]`. -/
def get_relevant_memories_body (mems : List LegacyMemory) (q : List ℝ)
    (limit : Nat) : Except Unit (List LegacyMemory × List ℝ × Nat) :=
  .error ()

/-- The caught version: always `[]`, matching the legacy behaviour. -/
def get_relevant_memories (mems : List LegacyMemory) (q : List ℝ)
    (limit : Nat) : List LegacyMemory :=
  match get_relevant_memories_body mems q limit with
  | .error _ => []
  | .ok r => r.1

end ConversationDB

/-- External collaborators of the legacy `MemoryManager`: the OpenRouter
summarization call (prompt ↦ `(content, usage.total_tokens)` or a raised
error), the `db.add_memory` commit outcome, and the sentence-transformer
encoder (one text ↦ one vector). -/
structure LegacyEnv where
  summarizer : String → Except Unit (String × Nat)
  memory_commit : Except Unit Unit
  encode : String → List ℝ

/-- The per-user state read by `get_conversation_context`: the
preference row, the user's memories and the user's conversation rows. -/
structure UserState where
  preferred_language : Option String
  conversation_topics : List String
  memories : List LegacyMemory
  conversations : List Conversation

/-- `conversation_text` of `_summarize_and_store` (main.py line 238). -/
def conversation_text (convs : List Conversation) : String :=
  String.intercalate "\n"
    (convs.map (fun c => "User: " ++ c.message ++ "\nAssistant: " ++ c.response))

/-- The summarization prompt of `_summarize_and_store` (main.py lines
240-245). -/
def summarization_prompt (convs : List Conversation) : String :=
  "The following is a conversation history between a user and an AI assistant. Please summarize the key topics and outcomes of this conversation. Focus on important information that an AI assistant would need to remember for future interactions with this user. Be concise.\n\nConversation History:\n"
    ++ conversation_text convs ++ "\n\nSummary:"

/-- The `try` body of `_summarize_and_store` (main.py lines 247-281):
call the summarizer, then persist the summary as a memory of kind
`summarization` with importance `0.7` and embedding
`model.encode([summary_content]).tolist()`; return the summary text and
the provider-reported total token count. -/
noncomputable def summarize_and_store_body (env : LegacyEnv) (user_id : String)
    (memories : List LegacyMemory) (conversations : List Conversation) :
    Except Unit ((String × Nat) × List LegacyMemory) :=
  match env.summarizer (summarization_prompt conversations) with
  | .error e => .error e
  | .ok (summary_content, summary_tokens) =>
    match env.memory_commit with
    | .error e => .error e
    | .ok _ =>
      .ok ((summary_content, summary_tokens),
        memories ++
          [⟨user_id, "summarization", summary_content, (0.7 : ℝ),
            some [env.encode summary_content]⟩])

/-- `MemoryManager._summarize_and_store` (main.py lines 236-285): the body
above with the catch-all handler that degrades any failure to
`("", 0)` with no memory written. -/
noncomputable def summarize_and_store (env : LegacyEnv) (user_id : String)
    (memories : List LegacyMemory) (conversations : List Conversation) :
    (String × Nat) × List LegacyMemory :=
  match summarize_and_store_body env user_id memories conversations with
  | .error _ => (("", 0), memories)
  | .ok r => r

/-- The guarded preferred-language addition of `get_conversation_context`
(main.py lines 161-167): if the preference is truthy and the estimated
tokens still fit, append the system message and charge the budget. -/
def language_stage (preferred_language : Option String)
    (st : List ChatMsg × Nat) : List ChatMsg × Nat :=
  match preferred_language with
  | some l =>
    if l ≠ "" then
      let text := "User's preferred language: " ++ l
      if st.2 + count_tokens text ≤ max_context_tokens then
        (st.1 ++ [⟨"system", text⟩], st.2 + count_tokens text)
      else st
    else st
  | none => st

/-- The rendered topics text of lines 172-179. -/
def topics_text (topics : List String) : String :=
  String.intercalate "\n"
    ("Frequently discussed topics:" :: (topics.take 3).map (fun t => "- " ++ t))

/-- The guarded topics addition of lines 169-183. -/
def topics_stage (topics : List String) (st : List ChatMsg × Nat) :
    List ChatMsg × Nat :=
  if topics ≠ [] then
    let text := topics_text topics
    if st.2 + count_tokens text ≤ max_context_tokens then
      (st.1 ++ [⟨"system", text⟩], st.2 + count_tokens text)
    else st
  else st

/-- The rendered memories text of line 188. -/
def memories_text (mems : List LegacyMemory) : String :=
  "\nRelevant context from previous conversations:\n"
    ++ String.intercalate "\n" (mems.map (fun m => "- " ++ m.content))

/-- The guarded relevant-memories addition of lines 185-194; the query is
issued with an empty query embedding (`db.get_relevant_memories(user_id,
[])`). -/
def memories_stage (memories : List LegacyMemory) (st : List ChatMsg × Nat) :
    List ChatMsg × Nat :=
  let mems := ConversationDB.get_relevant_memories memories [] 5
  if !mems.isEmpty then
    let text := memories_text mems
    if st.2 + count_tokens text ≤ max_context_tokens then
      (st.1 ++ [⟨"system", text⟩], st.2 + count_tokens text)
    else st
  else st

/-- One pass of the recent-conversations loop (main.py lines 201-214),
folding over the turns oldest-first: a fitting turn has its user and
assistant messages *prepended* (`insert(0, …)`) to
`conversations_for_context` and its tokens charged; a non-fitting turn is
prepended to `conversations_to_summarize`. -/
def conversation_fold_step (st : List ChatMsg × List Conversation × Nat)
    (conv : Conversation) : List ChatMsg × List Conversation × Nat :=
  let user_msg_tokens := count_tokens conv.message
  let assistant_msg_tokens := count_tokens conv.response
  let total_conv_tokens := user_msg_tokens + assistant_msg_tokens
  if st.2.2 + total_conv_tokens ≤ max_context_tokens then
    (⟨"user", conv.message⟩ :: ⟨"assistant", conv.response⟩ :: st.1,
      st.2.1, st.2.2 + total_conv_tokens)
  else
    (st.1, conv :: st.2.1, st.2.2)

/-- `MemoryManager.get_conversation_context` (main.py lines 59-234),
returning the assembled message list together with the (possibly grown)
memory store.  The budget counter starts at the estimated system-prompt
cost; the language, topics and memories additions are individually
guarded; recent turns (the 20 newest, walked oldest-first) are guarded as
pairs, with non-fitting turns collected for summarization; when at least
`context_summary_threshold` turns overflow, `_summarize_and_store` runs
and its summary is added if `current + reported_tokens` still fits.  The
final list is the system prompt followed by the system additions followed
by the collected turn messages. -/
noncomputable def get_conversation_context (env : LegacyEnv) (st : UserState)
    (user_id : String) : List ChatMsg × List LegacyMemory :=
  let base0 : List ChatMsg × Nat := ([], count_tokens system_prompt_template)
  let base1 := language_stage st.preferred_language base0
  let base2 := topics_stage st.conversation_topics base1
  let base3 := memories_stage st.memories base2
  let recent := (st.conversations.insertionSort ts_desc).take (max_context_length * 2)
  let folded := recent.reverse.foldl conversation_fold_step ([], [], base3.2)
  let conversations_for_context := folded.1
  let conversations_to_summarize := folded.2.1
  let current_tokens := folded.2.2
  if context_summary_threshold ≤ conversations_to_summarize.length then
    let s := summarize_and_store env user_id st.memories conversations_to_summarize
    let context_messages :=
      if current_tokens + s.1.2 ≤ max_context_tokens then
        base3.1 ++ [⟨"system", "Summary of previous conversations: " ++ s.1.1⟩]
      else base3.1
    (⟨"system", system_prompt_template⟩ :: context_messages
        ++ conversations_for_context, s.2)
  else
    (⟨"system", system_prompt_template⟩ :: base3.1
        ++ conversations_for_context, st.memories)

/-! ## `ConversationService.process_message` (conversation_service.py) -/

/-- The per-user `user_context` row as read by the service
(`preferred_language`, the rolling `context_messages`, and the
`context_window` cap used by `add_message`). -/
structure ContextRow where
  context_messages : List ContextEntry
  preferred_language : Option String
  context_window : Int

/-- The whole store as seen by the service: user ids, conversation rows,
memory rows and the per-user context rows (a total function models the
get-or-create access, absent rows standing for the default row). -/
structure ServiceState where
  users : List String
  conversations : List Conversation
  memories : List UserMemory
  contexts : String → ContextRow

/-- The LLM provider's reply: `{content, usage.get("total_tokens")}`. -/
structure LLMResponse where
  content : String
  total_tokens : Option Nat

/-- Outcomes of the external effects of one `process_message` call: the
embedding batch `encode([message])`, the generation call, the
`add_conversation` commit and the two `update_user_context` commits. -/
structure ServiceEnv where
  encoded : Except Unit (List (List ℝ))
  llm : List ChatMsg → Except Unit LLMResponse
  store_commit : Except Unit Unit
  context_commit_user : Except Unit Unit
  context_commit_assistant : Except Unit Unit

/-- The dict returned by `process_message`: the response text, the
`is_repetition` key (absent — `none` — on the error fallback) and whether
the `error` key is present. -/
structure ProcessResult where
  response : String
  is_repetition : Option Bool
  error : Bool
deriving DecidableEq

/-- The fixed fallback text of the outer exception handler
(conversation_service.py lines 66-71). -/
def fallback_text : String :=
  "I apologize, but I'm having trouble processing your message right now. Please try again in a moment."

/-- The error-fallback dict. -/
def fallback_result : ProcessResult := ⟨fallback_text, none, true⟩

/-- `ConversationService._generate_embedding` (lines 73-80):
`encode([text])[0]` if the batch is truthy, `None` on an empty batch or a
provider error. -/
def generate_embedding : Except Unit (List (List ℝ)) → Option (List ℝ)
  | .error _ => none
  | .ok [] => none
  | .ok (v :: _) => some v

/-- `ConversationService._check_repetition` (lines 82-97): a falsy
(`None`/empty) message embedding short-circuits to `(False, None)`;
otherwise the repository's `check_repetition` runs with threshold `0.8`
and a 30-second window. -/
noncomputable def service_check_repetition (convs : List Conversation)
    (user_id : String) (message_embedding : Option (List ℝ)) (now : Int) :
    Bool × Option Conversation :=
  match message_embedding with
  | none => (false, none)
  | some e =>
    if e.isEmpty then (false, none)
    else SQLConversationRepository.check_repetition convs user_id e now 0.8 30

/-- `ConversationService._build_conversation_context` (lines 99-121):
system prompt, then the truthy preferred-language note, then the 10 most
recent turns of the user appended oldest-first as user/assistant pairs. -/
def build_conversation_context (st : ServiceState) (user_id : String)
    (system_prompt : String) : List ChatMsg :=
  let language_msgs : List ChatMsg :=
    match (st.contexts user_id).preferred_language with
    | some l => if l ≠ "" then [⟨"system", "User's preferred language: " ++ l⟩] else []
    | none => []
  let recent := ((st.conversations.filter
      (fun c => c.user_id == user_id)).insertionSort ts_desc).take 10
  (⟨"system", system_prompt⟩ :: language_msgs)
    ++ recent.reverse.foldl
        (fun acc c => acc ++ [⟨"user", c.message⟩, ⟨"assistant", c.response⟩]) []

/-- One `SQLContextManager.update_user_context` call (sql_context_manager.py
lines 27-34): `add_message` on the user's row followed by a commit; any
failure is caught inside the manager, leaving the store unchanged and
never propagating. -/
def update_user_context_step (commit : Except Unit Unit)
    (contexts : String → ContextRow) (user_id role content : String)
    (ts : Int) : String → ContextRow :=
  match commit with
  | .error _ => contexts
  | .ok _ => fun x =>
    if x = user_id then
      let r := contexts x
      { r with context_messages :=
          add_message role content ts r.context_window r.context_messages }
    else contexts x

/-- `SQLUserRepository.get_or_create_user` (sql_user_repository.py lines
19-28): `INSERT … ON CONFLICT DO NOTHING`. -/
def get_or_create_user (users : List String) (user_id : String) : List String :=
  if user_id ∈ users then users else users ++ [user_id]

/-- `ConversationService.process_message` (conversation_service.py lines
30-71).  Order of effects: ensure the user row; embed the message
(failure degrades to no embedding); repetition check (a hit returns the
matched turn's stored response immediately); build the context; generate
(failure falls to the outer handler's fallback); `add_conversation`
(an uncaught raise on failure — the outer handler returns the fallback);
two context updates (caught inside the context manager); return the
generated content. -/
noncomputable def process_message (env : ServiceEnv) (st : ServiceState)
    (user_id message language : String) (now : Int) (system_prompt : String) :
    ProcessResult × ServiceState :=
  let st1 : ServiceState := { st with users := get_or_create_user st.users user_id }
  let message_embedding := generate_embedding env.encoded
  match service_check_repetition st1.conversations user_id message_embedding now with
  | (true, some similar_conv) =>
    (⟨similar_conv.response, some true, false⟩, st1)
  | _ =>
    let context_messages := build_conversation_context st1 user_id system_prompt
    match env.llm (context_messages ++ [⟨"user", message⟩]) with
    | .error _ => (fallback_result, st1)
    | .ok resp =>
      match env.store_commit with
      | .error _ => (fallback_result, st1)
      | .ok _ =>
        let st2 : ServiceState := { st1 with conversations :=
          st1.conversations ++
            [⟨user_id, message, resp.content, language, now,
              message_embedding, none, resp.total_tokens⟩] }
        let ctx1 := update_user_context_step env.context_commit_user
          st2.contexts user_id "user" message now
        let ctx2 := update_user_context_step env.context_commit_assistant
          ctx1 user_id "assistant" resp.content now
        (⟨resp.content, some false, false⟩, { st2 with contexts := ctx2 })

/-! ## Claim theorems -/

/-- Slicing helper: for `cw ≥ 1`, `l[-cw:]` keeps the last `min cw |l|`
elements. -/
theorem py_slice_from_neg (cw : Int) (l : List α) (h1 : 1 ≤ cw) :
    py_slice_from (-cw) l = l.drop (l.length - cw.toNat) := by
  unfold py_slice_from
  rw [if_pos (by omega)]
  congr 1
  omega

/-- `add_message` in the overflow case (`cw < |msgs| + 1`, `cw ≥ 1`):
the result is the suffix of the appended list of length `cw`. -/
theorem add_message_of_overflow (role content : String) (ts cw : Int)
    (msgs : List ContextEntry) (h : cw < (msgs.length : Int) + 1) (h1 : 1 ≤ cw) :
    add_message role content ts cw msgs =
      (msgs ++ [ContextEntry.mk role content ts]).drop
        (msgs.length + 1 - cw.toNat) := by
  unfold add_message
  rw [if_pos (by simp only [List.length_append, List.length_cons, List.length_nil]; omega)]
  rw [py_slice_from_neg _ _ h1]
  congr 1
  simp

/-- `add_message` in the fitting case (`|msgs| + 1 ≤ cw`): plain append. -/
theorem add_message_of_fits (role content : String) (ts cw : Int)
    (msgs : List ContextEntry) (h : (msgs.length : Int) + 1 ≤ cw) :
    add_message role content ts cw msgs =
      msgs ++ [ContextEntry.mk role content ts] := by
  unfold add_message
  rw [if_neg (by simp only [List.length_append, List.length_cons, List.length_nil]; omega)]

/-- C9, counterexample: with `context_window = 0` (an allowed value of the
integer column), `add_message` keeps *all* entries — Python's
`lst[-0:]` is the whole list — so after the call the context holds one
entry, strictly more than `context_window = 0`. -/
theorem add_message_window_zero_keeps_entry :
    (0 : Int) < ((add_message "user" "hi" 0 0 []).length : Int) ∧
    (add_message "user" "hi" 0 0 []).length = 1 := by decide

/-- C9 (amended): provided `context_window ≥ 1`, after every `add_message`
call the context holds at most `context_window` entries, and when the cap
is exceeded the result is exactly the suffix of most-recent appended
entries in their original order; in the concrete scenario
`context_window = 10` with 10 existing entries, appending a user/assistant
pair leaves exactly the last 10 entries, the oldest pair evicted. -/
theorem add_message_fifo_bound (role content : String) (ts : Int)
    (context_window : Int) (msgs : List ContextEntry)
    (hcw : 1 ≤ context_window) :
    (((add_message role content ts context_window msgs).length : Int) ≤ context_window ∧
      (context_window < (msgs.length : Int) + 1 →
        add_message role content ts context_window msgs =
          (msgs ++ [ContextEntry.mk role content ts]).drop
            ((msgs.length + 1) - context_window.toNat))) ∧
    (∀ role2 content2 : String, ∀ ts2 : Int, msgs.length = 10 →
      add_message role2 content2 ts2 10 (add_message role content ts 10 msgs) =
        msgs.drop 2 ++ [ContextEntry.mk role content ts,
          ContextEntry.mk role2 content2 ts2] ∧
      (add_message role2 content2 ts2 10
          (add_message role content ts 10 msgs)).length = 10) := by
  constructor
  · by_cases hlt : context_window < (msgs.length : Int) + 1
    · rw [add_message_of_overflow role content ts context_window msgs hlt hcw]
      refine ⟨?_, fun _ => rfl⟩
      rw [List.length_drop]
      simp only [List.length_append, List.length_cons, List.length_nil]
      omega
    · rw [add_message_of_fits role content ts context_window msgs (by omega)]
      refine ⟨?_, fun hc => absurd hc hlt⟩
      simp only [List.length_append, List.length_cons, List.length_nil]
      omega
  · intro role2 content2 ts2 h10
    have e1 : add_message role content ts 10 msgs =
        msgs.drop 1 ++ [ContextEntry.mk role content ts] := by
      rw [add_message_of_overflow role content ts 10 msgs (by omega) (by norm_num)]
      rw [show msgs.length + 1 - (10 : Int).toNat = 1 by omega]
      rw [List.drop_append_of_le_length (by omega)]
    have hlen1 : (msgs.drop 1).length = 9 := by
      rw [List.length_drop, h10]
    have e2 : add_message role2 content2 ts2 10
        (msgs.drop 1 ++ [ContextEntry.mk role content ts]) =
        msgs.drop 2 ++ [ContextEntry.mk role content ts,
          ContextEntry.mk role2 content2 ts2] := by
      rw [add_message_of_overflow role2 content2 ts2 10 _
        (by simp only [List.length_append, List.length_cons, List.length_nil, hlen1]; omega)
        (by norm_num)]
      rw [show (msgs.drop 1 ++ [ContextEntry.mk role content ts]).length + 1
          - (10 : Int).toNat = 1 by
        simp only [List.length_append, List.length_cons, List.length_nil, hlen1]; omega]
      rw [List.append_assoc, List.drop_append_of_le_length (by omega), List.drop_drop]
      norm_num
    rw [e1, e2]
    refine ⟨rfl, ?_⟩
    simp only [List.length_append, List.length_cons, List.length_nil, List.length_drop, h10]

/-- C9 witness: the amended theorem applied at a concrete window. -/
theorem add_message_fifo_bound_witness :
    ((add_message "user" "hi" 0 10 []).length : Int) ≤ 10 :=
  (add_message_fifo_bound "user" "hi" 0 10 [] (by norm_num)).1.1

/-- A matched conversation returned by the comparison loop is one of the
scanned candidates. -/
theorem compare_embeddings_matched_mem {q : List ℝ} {θ : ℝ} :
    ∀ {l : List Conversation} {c : Conversation},
      SQLConversationRepository.compare_embeddings q θ l = .ok (true, some c) →
      c ∈ l := by
  intro l
  induction l with
  | nil => intro c h; simp [SQLConversationRepository.compare_embeddings] at h
  | cons hd tl ih =>
    intro c h
    simp only [SQLConversationRepository.compare_embeddings] at h
    split at h
    · exact List.mem_cons_of_mem _ (ih h)
    · split at h
      · exact List.mem_cons_of_mem _ (ih h)
      · split at h
        · exact absurd h (by simp)
        · split at h
          · have : hd = c := by simpa using h
            exact this ▸ List.mem_cons_self _ _
          · exact List.mem_cons_of_mem _ (ih h)

/-- Every candidate produced by the windowed query is a stored row of the
user with a timestamp inside the window. -/
theorem recent_window_mem {convs : List Conversation} {u : String} {t : Int}
    {c : Conversation}
    (h : c ∈ SQLConversationRepository.recent_window convs u t) :
    c ∈ convs ∧ c.user_id = u ∧ t ≤ c.timestamp := by
  unfold SQLConversationRepository.recent_window at h
  have h1 : c ∈ (convs.filter (fun c =>
      c.user_id == u && decide (t ≤ c.timestamp))).insertionSort ts_desc :=
    List.mem_of_mem_take h
  have h2 := (List.mem_insertionSort ts_desc).mp h1
  have h3 := List.mem_filter.mp h2
  have h4 := h3.2
  simp only [Bool.and_eq_true, beq_iff_eq, decide_eq_true_eq] at h4
  exact ⟨h3.1, h4.1, h4.2⟩

/-- A matched turn of `check_repetition` is a stored row of the user inside
the time window. -/
theorem check_repetition_matched_mem {convs : List Conversation} {u : String}
    {q : List ℝ} {now : Int} {θ : ℝ} {w : Int} {d : Conversation}
    (h : SQLConversationRepository.check_repetition convs u q now θ w =
      (true, some d)) :
    d ∈ convs ∧ d.user_id = u ∧ now - w ≤ d.timestamp := by
  simp only [SQLConversationRepository.check_repetition] at h
  split at h
  · exact absurd h (by simp)
  · rename_i r heq
    have hd : d ∈ SQLConversationRepository.recent_window convs u (now - w) := by
      apply compare_embeddings_matched_mem (q := q) (θ := θ)
      rw [heq, h]
    exact recent_window_mem hd

/-- C4: with a 30-second window, (a) any turn matched by
`check_repetition` lies inside the window — in particular a turn
timestamped 31 seconds before `now` is never matched, whatever its
similarity; and (b) a turn of the user timestamped 29 seconds before
`now` is a candidate and is matched as soon as its similarity strictly
exceeds the threshold. -/
theorem check_repetition_window_boundary :
    (∀ (convs : List Conversation) (u : String) (q : List ℝ) (now : Int)
      (θ : ℝ) (d : Conversation),
      SQLConversationRepository.check_repetition convs u q now θ 30 =
        (true, some d) →
      now - 30 ≤ d.timestamp ∧ ¬ d.timestamp = now - 31) ∧
    (∀ (u msg resp lang : String) (now : Int) (q e : List ℝ)
      (tp : Option String) (nt : Option Nat),
      q ≠ [] → e ≠ [] → q.length = e.length →
      (0.8 : ℝ) < cosine_similarity q e →
      SQLConversationRepository.check_repetition
        [⟨u, msg, resp, lang, now - 29, some e, tp, nt⟩] u q now 0.8 30 =
        (true, some ⟨u, msg, resp, lang, now - 29, some e, tp, nt⟩)) := by
  constructor
  · intro convs u q now θ d h
    have hm := (check_repetition_matched_mem h).2.2
    exact ⟨hm, by omega⟩
  · intro u msg resp lang now q e tp nt hq he hlen hsim
    have hwin : SQLConversationRepository.recent_window
        [⟨u, msg, resp, lang, now - 29, some e, tp, nt⟩] u (now - 30) =
        [⟨u, msg, resp, lang, now - 29, some e, tp, nt⟩] := by
      unfold SQLConversationRepository.recent_window
      have hcond : (((⟨u, msg, resp, lang, now - 29, some e, tp, nt⟩ :
          Conversation).user_id == u) &&
          decide (now - 30 ≤ (⟨u, msg, resp, lang, now - 29, some e, tp, nt⟩ :
            Conversation).timestamp)) = true := by
        simp only [Bool.and_eq_true, beq_self_eq_true, true_and,
          decide_eq_true_eq]
        omega
      rw [List.filter_cons, if_pos hcond, List.filter_nil]
      simp [List.insertionSort, List.orderedInsert]
    have hee : e.isEmpty = false := by
      cases e with
      | nil => exact absurd rfl he
      | cons a as => rfl
    have hchk : cosine_similarity_checked q e = .ok (cosine_similarity q e) := by
      unfold cosine_similarity_checked
      rw [if_neg]
      push_neg
      refine ⟨fun h0 => hq (List.length_eq_zero.mp h0),
        fun h0 => he (List.length_eq_zero.mp h0), hlen⟩
    simp only [SQLConversationRepository.check_repetition, hwin,
      SQLConversationRepository.compare_embeddings, hee, Bool.false_eq_true,
      if_false, hchk, if_pos hsim]

/-- C4 witness: a turn 29 seconds old with cosine similarity 1 against the
query is matched, and the matched turn indeed lies inside the window and
is not 31 seconds old. -/
theorem check_repetition_window_boundary_witness :
    (100 : Int) - 30 ≤ 100 - 29 ∧ ¬ ((100 : Int) - 29 = 100 - 31) := by
  have hsim : (0.8 : ℝ) < cosine_similarity [1, 0] [1, 0] := by
    unfold cosine_similarity
    norm_num [dot_product, Real.sqrt_one]
  have hb := check_repetition_window_boundary.2 "u1" "hi" "yo" "en" 100
    [1, 0] [1, 0] none none (by simp) (by simp) rfl hsim
  exact check_repetition_window_boundary.1 _ "u1" [1, 0] 100 0.8 _ hb

/-- Windowed query on a two-row store whose rows belong to the user, lie
inside the window and are already newest-first. -/
theorem recent_window_pair (c1 c2 : Conversation) (u : String) (t : Int)
    (h1 : c1.user_id = u) (h2 : c2.user_id = u)
    (ht1 : t ≤ c1.timestamp) (ht2 : t ≤ c2.timestamp)
    (hord : c2.timestamp ≤ c1.timestamp) :
    SQLConversationRepository.recent_window [c1, c2] u t = [c1, c2] := by
  unfold SQLConversationRepository.recent_window
  have hc1 : (c1.user_id == u && decide (t ≤ c1.timestamp)) = true := by
    simp [h1, ht1]
  have hc2 : (c2.user_id == u && decide (t ≤ c2.timestamp)) = true := by
    simp [h2, ht2]
  rw [List.filter_cons, if_pos hc1, List.filter_cons, if_pos hc2,
    List.filter_nil]
  simp [List.insertionSort, List.orderedInsert, ts_desc, hord]

/-- Windowed query on a three-row store whose rows belong to the user, lie
inside the window and are already newest-first. -/
theorem recent_window_triple (c1 c2 c3 : Conversation) (u : String) (t : Int)
    (h1 : c1.user_id = u) (h2 : c2.user_id = u) (h3 : c3.user_id = u)
    (ht1 : t ≤ c1.timestamp) (ht2 : t ≤ c2.timestamp) (ht3 : t ≤ c3.timestamp)
    (hord21 : c2.timestamp ≤ c1.timestamp)
    (hord32 : c3.timestamp ≤ c2.timestamp) :
    SQLConversationRepository.recent_window [c1, c2, c3] u t = [c1, c2, c3] := by
  unfold SQLConversationRepository.recent_window
  have hc1 : (c1.user_id == u && decide (t ≤ c1.timestamp)) = true := by
    simp [h1, ht1]
  have hc2 : (c2.user_id == u && decide (t ≤ c2.timestamp)) = true := by
    simp [h2, ht2]
  have hc3 : (c3.user_id == u && decide (t ≤ c3.timestamp)) = true := by
    simp [h3, ht3]
  rw [List.filter_cons, if_pos hc1, List.filter_cons, if_pos hc2,
    List.filter_cons, if_pos hc3, List.filter_nil]
  simp [List.insertionSort, List.orderedInsert, ts_desc, hord21, hord32,
    le_trans hord32 hord21]

/-- `cosine_similarity_checked` on well-shaped nonempty inputs returns the
similarity. -/
theorem cosine_similarity_checked_ok {q e : List ℝ} (hq : q ≠ []) (he : e ≠ [])
    (hlen : q.length = e.length) :
    cosine_similarity_checked q e = .ok (cosine_similarity q e) := by
  unfold cosine_similarity_checked
  rw [if_neg]
  push_neg
  exact ⟨fun h0 => hq (List.length_eq_zero.mp h0),
    fun h0 => he (List.length_eq_zero.mp h0), hlen⟩

/-- A nonempty list is not `isEmpty`. -/
theorem isEmpty_false_of_ne_nil {e : List ℝ} (he : e ≠ []) :
    e.isEmpty = false := by
  cases e with
  | nil => exact absurd rfl he
  | cons a as => rfl

/-- C5, counterexample: the first candidate's stored embedding has
dimension 1 while the query has dimension 2; the claim expects the scan
to skip it and return the second candidate (whose similarity 1 strictly
exceeds the 0.8 threshold), but `check_repetition` returns
`(False, None)`: the sklearn `ValueError` aborts the whole scan via the
outer handler. -/
theorem check_repetition_dim_mismatch_counterexample :
    SQLConversationRepository.check_repetition
      [⟨"u", "m1", "r1", "en", 100, some [1], none, none⟩,
        ⟨"u", "m2", "r2", "en", 99, some [1, 0], none, none⟩]
      "u" [1, 0] 100 0.8 30 = (false, none) ∧
    (0.8 : ℝ) < cosine_similarity [1, 0] [1, 0] := by
  constructor
  · have hwin := recent_window_pair
      ⟨"u", "m1", "r1", "en", 100, some [1], none, none⟩
      ⟨"u", "m2", "r2", "en", 99, some [1, 0], none, none⟩
      "u" (100 - 30) rfl rfl (by norm_num) (by norm_num) (by norm_num)
    have hchk : cosine_similarity_checked [(1 : ℝ), 0] [1] = .error () := by
      unfold cosine_similarity_checked
      rw [if_pos]
      right; right
      simp
    simp only [SQLConversationRepository.check_repetition, hwin,
      SQLConversationRepository.compare_embeddings, List.isEmpty_cons,
      Bool.false_eq_true, if_false, hchk]
  · unfold cosine_similarity
    norm_num [dot_product, Real.sqrt_one]

/-- C5 (amended): a candidate with a *missing* (null or empty) embedding
is skipped and the scan continues, so a later above-threshold candidate is
still returned; but a candidate whose stored embedding has a different
dimensionality than the query makes the similarity call raise, the outer
handler catches it, and the whole call returns `(False, None)` — the scan
does not continue past it. -/
theorem check_repetition_missing_vs_mismatched :
    (∀ (c1 c2 : Conversation) (u : String) (now : Int) (θ : ℝ) (q e2 : List ℝ),
      c1.user_id = u → c2.user_id = u →
      now - 30 ≤ c2.timestamp → c2.timestamp ≤ c1.timestamp →
      (c1.embedding = none ∨ c1.embedding = some []) →
      c2.embedding = some e2 → e2 ≠ [] → q ≠ [] → q.length = e2.length →
      θ < cosine_similarity q e2 →
      SQLConversationRepository.check_repetition [c1, c2] u q now θ 30 =
        (true, some c2)) ∧
    (∀ (c1 c2 : Conversation) (u : String) (now : Int) (θ : ℝ) (q e1 : List ℝ),
      c1.user_id = u → c2.user_id = u →
      now - 30 ≤ c2.timestamp → c2.timestamp ≤ c1.timestamp →
      c1.embedding = some e1 → e1 ≠ [] → q.length ≠ e1.length →
      SQLConversationRepository.check_repetition [c1, c2] u q now θ 30 =
        (false, none)) := by
  constructor
  · intro c1 c2 u now θ q e2 h1 h2 ht2 hord hmiss he2 he2ne hq hlen hsim
    have hwin := recent_window_pair c1 c2 u (now - 30) h1 h2
      (le_trans ht2 hord) ht2 hord
    have hee2 := isEmpty_false_of_ne_nil he2ne
    have hchk := cosine_similarity_checked_ok hq he2ne hlen
    rcases hmiss with hm | hm
    · simp only [SQLConversationRepository.check_repetition, hwin,
        SQLConversationRepository.compare_embeddings, hm, he2, hee2,
        Bool.false_eq_true, if_false, hchk, if_pos hsim]
    · simp only [SQLConversationRepository.check_repetition, hwin,
        SQLConversationRepository.compare_embeddings, hm, he2,
        List.isEmpty_nil, if_true, hee2, Bool.false_eq_true, if_false,
        hchk, if_pos hsim]
  · intro c1 c2 u now θ q e1 h1 h2 ht2 hord he1 he1ne hlen
    have hwin := recent_window_pair c1 c2 u (now - 30) h1 h2
      (le_trans ht2 hord) ht2 hord
    have hee1 := isEmpty_false_of_ne_nil he1ne
    have hchk : cosine_similarity_checked q e1 = .error () := by
      unfold cosine_similarity_checked
      rw [if_pos]
      right; right
      exact hlen
    simp only [SQLConversationRepository.check_repetition, hwin,
      SQLConversationRepository.compare_embeddings, he1, hee1,
      Bool.false_eq_true, if_false, hchk]

/-- C5 witness: both amended behaviours at concrete inputs — a null
first embedding is skipped and the second turn matched; a 1-dimensional
first embedding against a 2-dimensional query yields `(False, None)`. -/
theorem check_repetition_missing_vs_mismatched_witness :
    SQLConversationRepository.check_repetition
      [⟨"u", "m1", "r1", "en", 100, none, none, none⟩,
        ⟨"u", "m2", "r2", "en", 99, some [1, 0], none, none⟩]
      "u" [1, 0] 100 0.8 30 =
      (true, some ⟨"u", "m2", "r2", "en", 99, some [1, 0], none, none⟩) ∧
    SQLConversationRepository.check_repetition
      [⟨"u", "m1", "r1", "en", 100, some [1], none, none⟩,
        ⟨"u", "m2", "r2", "en", 99, some [1, 0], none, none⟩]
      "u" [1, 0] 100 0.8 30 = (false, none) := by
  have hsim : (0.8 : ℝ) < cosine_similarity [1, 0] [1, 0] := by
    unfold cosine_similarity
    norm_num [dot_product, Real.sqrt_one]
  constructor
  · exact check_repetition_missing_vs_mismatched.1
      ⟨"u", "m1", "r1", "en", 100, none, none, none⟩
      ⟨"u", "m2", "r2", "en", 99, some [1, 0], none, none⟩
      "u" 100 0.8 [1, 0] [1, 0] rfl rfl (by norm_num) (by norm_num)
      (Or.inl rfl) rfl (by simp) (by simp) rfl hsim
  · exact check_repetition_missing_vs_mismatched.2
      ⟨"u", "m1", "r1", "en", 100, some [1], none, none⟩
      ⟨"u", "m2", "r2", "en", 99, some [1, 0], none, none⟩
      "u" 100 0.8 [1, 0] [1] rfl rfl (by norm_num) (by norm_num)
      rfl (by simp) (by simp)

/-- C3: (a) the comparison loop is first-match-wins — whenever the first
candidate's similarity strictly exceeds the threshold it is returned, no
matter what comes later; (b) for a user with three recent embedded turns
whose similarities in newest-first recency order are 0.9, 0.95 and 0.7 and
threshold 0.8, `check_repetition` returns the 0.9 turn (the first
exceeding the threshold), not the better-scoring 0.95 turn. -/
theorem check_repetition_first_match_wins :
    (∀ (q : List ℝ) (θ : ℝ) (c : Conversation) (rest : List Conversation)
      (e : List ℝ),
      c.embedding = some e → e ≠ [] → q ≠ [] → q.length = e.length →
      θ < cosine_similarity q e →
      SQLConversationRepository.compare_embeddings q θ (c :: rest) =
        .ok (true, some c)) ∧
    (∀ (c1 c2 c3 : Conversation) (u : String) (now : Int)
      (q e1 e2 e3 : List ℝ),
      c1.user_id = u → c2.user_id = u → c3.user_id = u →
      now - 30 ≤ c3.timestamp → c3.timestamp ≤ c2.timestamp →
      c2.timestamp ≤ c1.timestamp →
      c1.embedding = some e1 → c2.embedding = some e2 →
      c3.embedding = some e3 →
      e1 ≠ [] → e2 ≠ [] → e3 ≠ [] → q ≠ [] →
      q.length = e1.length → q.length = e2.length → q.length = e3.length →
      cosine_similarity q e1 = 0.9 → cosine_similarity q e2 = 0.95 →
      cosine_similarity q e3 = 0.7 →
      SQLConversationRepository.check_repetition [c1, c2, c3] u q now 0.8 30 =
        (true, some c1)) := by
  constructor
  · intro q θ c rest e he hene hq hlen hsim
    have hee := isEmpty_false_of_ne_nil hene
    have hchk := cosine_similarity_checked_ok hq hene hlen
    simp only [SQLConversationRepository.compare_embeddings, he, hee,
      Bool.false_eq_true, if_false, hchk, if_pos hsim]
  · intro c1 c2 c3 u now q e1 e2 e3 h1 h2 h3 ht3 hord32 hord21 he1 he2 he3
      he1ne he2ne he3ne hq hlen1 hlen2 hlen3 hs1 hs2 hs3
    have hwin := recent_window_triple c1 c2 c3 u (now - 30) h1 h2 h3
      (le_trans (le_trans ht3 hord32) hord21) (le_trans ht3 hord32) ht3
      hord21 hord32
    have hee1 := isEmpty_false_of_ne_nil he1ne
    have hchk1 := cosine_similarity_checked_ok hq he1ne hlen1
    have hsim1 : (0.8 : ℝ) < cosine_similarity q e1 := by
      rw [hs1]; norm_num
    simp only [SQLConversationRepository.check_repetition, hwin,
      SQLConversationRepository.compare_embeddings, he1, hee1,
      Bool.false_eq_true, if_false, hchk1, if_pos hsim1]

/-- Cosine similarity of `[1,0]` against `[a, √b]` with `a² + b = 1`:
exactly `a`. -/
theorem cosine_similarity_unit (a b : ℝ) (hb : 0 ≤ b) (hab : a ^ 2 + b = 1) :
    cosine_similarity [1, 0] [a, Real.sqrt b] = a := by
  unfold cosine_similarity
  simp only [dot_product]
  rw [Real.mul_self_sqrt hb]
  have h1 : a * a + (b + 0) = 1 := by
    rw [add_zero, ← pow_two]
    exact hab
  rw [h1]
  norm_num [Real.sqrt_one]

/-- C3 witness: three turns whose embeddings have cosine similarities
exactly 0.9, 0.95 and 0.7 against the query `[1,0]`; the newest (0.9) turn
is returned. -/
theorem check_repetition_first_match_wins_witness :
    SQLConversationRepository.check_repetition
      [⟨"u1", "m1", "r1", "en", 99, some [0.9, Real.sqrt 0.19], none, none⟩,
        ⟨"u1", "m2", "r2", "en", 98, some [0.95, Real.sqrt 0.0975], none, none⟩,
        ⟨"u1", "m3", "r3", "en", 97, some [0.7, Real.sqrt 0.51], none, none⟩]
      "u1" [1, 0] 100 0.8 30 =
      (true, some ⟨"u1", "m1", "r1", "en", 99,
        some [0.9, Real.sqrt 0.19], none, none⟩) := by
  have hs1 : cosine_similarity [1, 0] [0.9, Real.sqrt 0.19] = 0.9 := by
    rw [cosine_similarity_unit] <;> norm_num
  have hs2 : cosine_similarity [1, 0] [0.95, Real.sqrt 0.0975] = 0.95 := by
    rw [cosine_similarity_unit] <;> norm_num
  have hs3 : cosine_similarity [1, 0] [0.7, Real.sqrt 0.51] = 0.7 := by
    rw [cosine_similarity_unit] <;> norm_num
  exact check_repetition_first_match_wins.2
    ⟨"u1", "m1", "r1", "en", 99, some [0.9, Real.sqrt 0.19], none, none⟩
    ⟨"u1", "m2", "r2", "en", 98, some [0.95, Real.sqrt 0.0975], none, none⟩
    ⟨"u1", "m3", "r3", "en", 97, some [0.7, Real.sqrt 0.51], none, none⟩
    "u1" 100 [1, 0] _ _ _ rfl rfl rfl (by norm_num) (by norm_num)
    (by norm_num) rfl rfl rfl (by simp) (by simp) (by simp) (by simp)
    rfl rfl rfl hs1 hs2 hs3

/-- Evaluation of `get_relevant_memories` on a two-row store, both rows
eligible, when the stable sort keeps the store order (second key ≤ first
key). -/
theorem get_relevant_memories_pair_keep (m1 m2 : UserMemory) (u : String)
    (q e1 e2 : List ℝ)
    (h1u : m1.user_id = u) (h2u : m2.user_id = u)
    (h1a : m1.is_active = true) (h2a : m2.is_active = true)
    (he1 : m1.embedding = some e1) (he2 : m2.embedding = some e2)
    (he1ne : e1 ≠ []) (he2ne : e2 ≠ [])
    (hl1 : e1.length = q.length) (hl2 : e2.length = q.length)
    (hcmp : cosine_similarity q e2 * m2.importance ≤
      cosine_similarity q e1 * m1.importance) :
    SQLMemoryRepository.get_relevant_memories [m1, m2] u q 5 =
      [⟨m1.content, m1.memory_type, m1.importance, cosine_similarity q e1⟩,
        ⟨m2.content, m2.memory_type, m2.importance, cosine_similarity q e2⟩] := by
  unfold SQLMemoryRepository.get_relevant_memories
  have hf1 : (m1.user_id == u && m1.is_active) = true := by simp [h1u, h1a]
  have hf2 : (m2.user_id == u && m2.is_active) = true := by simp [h2u, h2a]
  rw [List.filter_cons, if_pos hf1, List.filter_cons, if_pos hf2,
    List.filter_nil]
  have hc1 : (!e1.isEmpty && e1.length == q.length) = true := by
    simp [isEmpty_false_of_ne_nil he1ne, hl1]
  have hc2 : (!e2.isEmpty && e2.length == q.length) = true := by
    simp [isEmpty_false_of_ne_nil he2ne, hl2]
  simp only [SQLMemoryRepository.memory_scores, List.filterMap_cons,
    List.filterMap_nil, he1, he2, hc1, hc2, if_true]
  have hins : ((([(m1, cosine_similarity q e1),
      (m2, cosine_similarity q e2)]).insertionSort
        SQLMemoryRepository.score_desc)) =
      [(m1, cosine_similarity q e1), (m2, cosine_similarity q e2)] := by
    simp only [List.insertionSort, List.orderedInsert]
    rw [if_pos]
    exact hcmp
  rw [hins]
  simp

/-- Evaluation of `get_relevant_memories` on a two-row store, both rows
eligible, when the sort swaps the rows (second key strictly greater). -/
theorem get_relevant_memories_pair_swap (m1 m2 : UserMemory) (u : String)
    (q e1 e2 : List ℝ)
    (h1u : m1.user_id = u) (h2u : m2.user_id = u)
    (h1a : m1.is_active = true) (h2a : m2.is_active = true)
    (he1 : m1.embedding = some e1) (he2 : m2.embedding = some e2)
    (he1ne : e1 ≠ []) (he2ne : e2 ≠ [])
    (hl1 : e1.length = q.length) (hl2 : e2.length = q.length)
    (hcmp : ¬ (cosine_similarity q e2 * m2.importance ≤
      cosine_similarity q e1 * m1.importance)) :
    SQLMemoryRepository.get_relevant_memories [m1, m2] u q 5 =
      [⟨m2.content, m2.memory_type, m2.importance, cosine_similarity q e2⟩,
        ⟨m1.content, m1.memory_type, m1.importance, cosine_similarity q e1⟩] := by
  unfold SQLMemoryRepository.get_relevant_memories
  have hf1 : (m1.user_id == u && m1.is_active) = true := by simp [h1u, h1a]
  have hf2 : (m2.user_id == u && m2.is_active) = true := by simp [h2u, h2a]
  rw [List.filter_cons, if_pos hf1, List.filter_cons, if_pos hf2,
    List.filter_nil]
  have hc1 : (!e1.isEmpty && e1.length == q.length) = true := by
    simp [isEmpty_false_of_ne_nil he1ne, hl1]
  have hc2 : (!e2.isEmpty && e2.length == q.length) = true := by
    simp [isEmpty_false_of_ne_nil he2ne, hl2]
  simp only [SQLMemoryRepository.memory_scores, List.filterMap_cons,
    List.filterMap_nil, he1, he2, hc1, hc2, if_true]
  have hins : ((([(m1, cosine_similarity q e1),
      (m2, cosine_similarity q e2)]).insertionSort
        SQLMemoryRepository.score_desc)) =
      [(m2, cosine_similarity q e2), (m1, cosine_similarity q e1)] := by
    have hsd : ¬ SQLMemoryRepository.score_desc
        (m1, cosine_similarity q e1) (m2, cosine_similarity q e2) := hcmp
    simp only [List.insertionSort, List.orderedInsert]
    rw [if_neg hsd]
  rw [hins]
  simp

/-- C2, counterexample: two active memories of the same user with equal
(zero) similarity to the query and importances 0.5 (memory B, stored
first) and 1 (memory A, stored second).  The claim's hypotheses hold with
the importance inequality strict, yet the stable sort keeps the tied store
order, ranking A strictly *below* B. -/
theorem get_relevant_memories_tie_counterexample :
    cosine_similarity [1, 0] [0, 1] = 0 ∧
    SQLMemoryRepository.get_relevant_memories
      [⟨"u", "fact", "B", 0.5, some [0, 1], true⟩,
        ⟨"u", "fact", "A", 1, some [0, 1], true⟩] "u" [1, 0] 5 =
      [⟨"B", "fact", 0.5, 0⟩, ⟨"A", "fact", 1, 0⟩] ∧
    ((0.5 : ℝ) < 1) := by
  have hcos : cosine_similarity [1, 0] [0, 1] = 0 := by
    unfold cosine_similarity
    simp only [dot_product]
    norm_num
  refine ⟨hcos, ?_, by norm_num⟩
  have h := get_relevant_memories_pair_keep
    ⟨"u", "fact", "B", 0.5, some [0, 1], true⟩
    ⟨"u", "fact", "A", 1, some [0, 1], true⟩
    "u" [1, 0] [0, 1] [0, 1] rfl rfl rfl rfl rfl rfl
    (by simp) (by simp) rfl rfl (by rw [hcos]; norm_num)
  rw [h, hcos]

/-- C2 (amended): for two active memories A and B of the user, both with
embeddings of the query's dimensionality, if similarity(A) ≥ similarity(B)
and importance(A) ≥ importance(B) with at least one strict, *and* B's
similarity and importance are strictly positive, then wherever B's record
appears in the returned ranking, A's record appears strictly above it. -/
theorem get_relevant_memories_rank_monotonic
    (ms : List UserMemory) (u : String) (q : List ℝ) (limit : Nat)
    (A B : UserMemory) (ea eb : List ℝ)
    (hAmem : A ∈ ms) (hBmem : B ∈ ms)
    (hAu : A.user_id = u) (hBu : B.user_id = u)
    (hAact : A.is_active = true) (hBact : B.is_active = true)
    (heA : A.embedding = some ea) (heB : B.embedding = some eb)
    (heAne : ea ≠ []) (heBne : eb ≠ [])
    (hlenA : ea.length = q.length) (hlenB : eb.length = q.length)
    (hsim : cosine_similarity q eb ≤ cosine_similarity q ea)
    (himp : B.importance ≤ A.importance)
    (hstrict : cosine_similarity q eb < cosine_similarity q ea ∨
      B.importance < A.importance)
    (hsimBpos : 0 < cosine_similarity q eb)
    (himpBpos : 0 < B.importance) :
    ∀ j : Nat,
      (SQLMemoryRepository.get_relevant_memories ms u q limit).get? j =
        some ⟨B.content, B.memory_type, B.importance, cosine_similarity q eb⟩ →
      ∃ i : Nat, i < j ∧
        (SQLMemoryRepository.get_relevant_memories ms u q limit).get? i =
          some ⟨A.content, A.memory_type, A.importance,
            cosine_similarity q ea⟩ := by
  intro j hj
  have hkey : cosine_similarity q eb * B.importance <
      cosine_similarity q ea * A.importance := by
    rcases hstrict with h | h
    · nlinarith
    · nlinarith
  have hAfil : A ∈ ms.filter (fun m => m.user_id == u && m.is_active) :=
    List.mem_filter.mpr ⟨hAmem, by simp [hAu, hAact]⟩
  unfold SQLMemoryRepository.get_relevant_memories at hj ⊢
  set L := (SQLMemoryRepository.memory_scores q
      (ms.filter (fun m => m.user_id == u && m.is_active))).insertionSort
    SQLMemoryRepository.score_desc with hL
  have hApair : (A, cosine_similarity q ea) ∈
      SQLMemoryRepository.memory_scores q
        (ms.filter (fun m => m.user_id == u && m.is_active)) := by
    unfold SQLMemoryRepository.memory_scores
    refine List.mem_filterMap.mpr ⟨A, hAfil, ?_⟩
    rw [heA]
    simp [isEmpty_false_of_ne_nil heAne, hlenA]
  have hsorted : L.Sorted SQLMemoryRepository.score_desc := by
    rw [hL]
    exact List.sorted_insertionSort SQLMemoryRepository.score_desc _
  have hAmemS : (A, cosine_similarity q ea) ∈ L := by
    rw [hL]
    exact (List.mem_insertionSort _).mpr hApair
  obtain ⟨iA, hiA⟩ := List.mem_iff_get?.mp hAmemS
  rw [List.get?_map] at hj
  obtain ⟨pb, hpb, hpbrec⟩ := Option.map_eq_some'.mp hj
  have hjlt : j < (L.take limit).length := by
    rcases List.get?_eq_some.mp hpb with ⟨hh, _⟩
    exact hh
  have hjlim : j < limit := by
    rw [List.length_take] at hjlt
    omega
  rw [List.get?_take hjlim] at hpb
  rw [← hL] at hpb
  have hkeypb : SQLMemoryRepository.score_key pb =
      cosine_similarity q eb * B.importance := by
    cases pb with
    | mk pm ps =>
      have h1 := congrArg MemoryRecord.importance hpbrec
      have h2 := congrArg MemoryRecord.similarity hpbrec
      simp only at h1 h2
      unfold SQLMemoryRepository.score_key
      rw [h1, h2]
  have hkeyA : SQLMemoryRepository.score_key (A, cosine_similarity q ea) =
      cosine_similarity q ea * A.importance := rfl
  have hiAj : iA < j := by
    by_contra hle
    push_neg at hle
    rcases Nat.eq_or_lt_of_le hle with heq | hlt
    · rw [← heq] at hiA
      rw [hpb] at hiA
      have hpbA : pb = (A, cosine_similarity q ea) := Option.some.inj hiA
      rw [hpbA, hkeyA] at hkeypb
      exact absurd hkey (by rw [hkeypb]; exact lt_irrefl _)
    · rcases List.get?_eq_some.mp hiA with ⟨hiAlt, hgetA⟩
      rcases List.get?_eq_some.mp hpb with ⟨hjlt2, hgetB⟩
      have hrel := List.Sorted.rel_get_of_lt hsorted
        (a := ⟨j, hjlt2⟩) (b := ⟨iA, hiAlt⟩) hlt
      have h2 : SQLMemoryRepository.score_key (L.get ⟨iA, hiAlt⟩) ≤
          SQLMemoryRepository.score_key (L.get ⟨j, hjlt2⟩) := hrel
      rw [hgetA, hgetB, hkeyA, hkeypb] at h2
      exact absurd h2 (not_le.mpr hkey)
  refine ⟨iA, hiAj, ?_⟩
  rw [List.get?_map, List.get?_take (lt_trans hiAj hjlim), hiA]
  rfl

/-- C2 witness: two memories with similarity 1 and importances 1 (A) and
0.5 (B), B stored first; B's record sits at index 1 and A's record indeed
appears strictly above it, at index 0. -/
theorem get_relevant_memories_rank_monotonic_witness :
    ∃ i : Nat, i < 1 ∧
      (SQLMemoryRepository.get_relevant_memories
        [⟨"u", "fact", "B", 0.5, some [1, 0], true⟩,
          ⟨"u", "fact", "A", 1, some [1, 0], true⟩] "u" [1, 0] 5).get? i =
        some ⟨"A", "fact", 1, cosine_similarity [1, 0] [1, 0]⟩ := by
  have hcos : cosine_similarity [1, 0] [1, 0] = 1 := by
    unfold cosine_similarity
    norm_num [dot_product, Real.sqrt_one]
  have hres := get_relevant_memories_pair_swap
    ⟨"u", "fact", "B", 0.5, some [1, 0], true⟩
    ⟨"u", "fact", "A", 1, some [1, 0], true⟩
    "u" [1, 0] [1, 0] [1, 0] rfl rfl rfl rfl rfl rfl
    (by simp) (by simp) rfl rfl (by rw [hcos]; norm_num)
  exact get_relevant_memories_rank_monotonic
    [⟨"u", "fact", "B", 0.5, some [1, 0], true⟩,
      ⟨"u", "fact", "A", 1, some [1, 0], true⟩] "u" [1, 0] 5
    ⟨"u", "fact", "A", 1, some [1, 0], true⟩
    ⟨"u", "fact", "B", 0.5, some [1, 0], true⟩
    [1, 0] [1, 0] (by simp) (by simp) rfl rfl rfl rfl rfl rfl
    (by simp) (by simp) rfl rfl le_rfl (by norm_num) (Or.inr (by norm_num))
    (by rw [hcos]; norm_num) (by norm_num) 1 (by rw [hres]; rfl)

/-- C8: a successful summarization call persists exactly one new memory,
of kind `summarization`, with importance exactly 0.7 and an embedding
computed (by the encoder) from the summary text itself — not from the
summarized turns — and returns the summary text with the provider-reported
token count. -/
theorem summarize_and_store_memory_fields (env : LegacyEnv) (user_id : String)
    (memories : List LegacyMemory) (conversations : List Conversation)
    (text : String) (tokens : Nat)
    (hllm : env.summarizer (summarization_prompt conversations) =
      .ok (text, tokens))
    (hcommit : env.memory_commit = .ok ()) :
    summarize_and_store env user_id memories conversations =
      ((text, tokens),
        memories ++
          [⟨user_id, "summarization", text, (0.7 : ℝ),
            some [env.encode text]⟩]) := by
  unfold summarize_and_store summarize_and_store_body
  rw [hllm, hcommit]

/-- C8 witness: a concrete successful summarization stores the expected
memory row. -/
theorem summarize_and_store_memory_fields_witness :
    summarize_and_store
      ⟨fun _ => .ok ("the summary", 5), .ok (), fun _ => [1]⟩ "u1" [] [] =
      (("the summary", 5),
        [⟨"u1", "summarization", "the summary", (0.7 : ℝ), some [[1]]⟩]) :=
  summarize_and_store_memory_fields
    ⟨fun _ => .ok ("the summary", 5), .ok (), fun _ => [1]⟩ "u1" [] []
    "the summary" 5 rfl rfl

/-- C7: a provider failure during summarization degrades to the empty
summary and zero token count, persists nothing, and the enclosing
context build completes and returns exactly the message list it would
return for an empty summary — the failure never propagates. -/
theorem summarize_failure_degrades (e : Unit) (user_id : String)
    (memories : List LegacyMemory) (conversations : List Conversation)
    (commit : Except Unit Unit) (enc : String → List ℝ) (st : UserState) :
    (summarize_and_store ⟨fun _ => .error e, commit, enc⟩ user_id memories
      conversations = (("", 0), memories)) ∧
    ((get_conversation_context ⟨fun _ => .error e, commit, enc⟩ st user_id).1 =
      (get_conversation_context ⟨fun _ => .ok ("", 0), .ok (), enc⟩ st
        user_id).1) ∧
    ((get_conversation_context ⟨fun _ => .error e, commit, enc⟩ st
        user_id).2 = st.memories) := by
  have hs1 : ∀ cs, summarize_and_store ⟨fun _ => .error e, commit, enc⟩
      user_id st.memories cs = (("", 0), st.memories) := fun _ => rfl
  have hs2 : ∀ cs, summarize_and_store ⟨fun _ => .ok ("", 0), .ok (), enc⟩
      user_id st.memories cs =
      (("", 0), st.memories ++
        [⟨user_id, "summarization", "", (0.7 : ℝ), some [enc ""]⟩]) :=
    fun _ => rfl
  refine ⟨rfl, ?_, ?_⟩
  · simp only [get_conversation_context, hs1, hs2]
    split_ifs <;> rfl
  · simp only [get_conversation_context, hs1]
    split_ifs <;> rfl

/-- Windowed query on a one-row store whose row belongs to the user and
lies inside the window. -/
theorem recent_window_single (c : Conversation) (u : String) (t : Int)
    (h1 : c.user_id = u) (ht : t ≤ c.timestamp) :
    SQLConversationRepository.recent_window [c] u t = [c] := by
  unfold SQLConversationRepository.recent_window
  have hc : (c.user_id == u && decide (t ≤ c.timestamp)) = true := by
    simp [h1, ht]
  rw [List.filter_cons, if_pos hc, List.filter_nil]
  simp [List.insertionSort, List.orderedInsert]

/-- C6, counterexample: the generation call succeeds (content
`"Hi there!"`) but the `add_conversation` commit fails; the claim expects
the generated response to be returned anyway, yet
`ConversationService.process_message` returns the error-fallback dict:
the repository re-raises and the outer handler catches it. -/
theorem process_message_store_failure_counterexample :
    (process_message
      ⟨.error (), fun _ => .ok ⟨"Hi there!", some 5⟩, .error (), .ok (), .ok ()⟩
      ⟨[], [], [], fun _ => ⟨[], none, 10⟩⟩
      "u1" "Hello" "en" 0 "SYS").1 = fallback_result ∧
    fallback_result.response ≠ "Hi there!" := by
  constructor
  · rfl
  · decide

/-- C6 (amended): after a successful generation and a successful
conversation-store append, the generated content is returned even if the
rolling-context updates fail (their outcomes are unconstrained here); a
conversation-store append failure after a successful generation, by
contrast, yields the error fallback instead of the generated content. -/
theorem process_message_persistence_vs_response :
    (∀ (env : ServiceEnv) (st : ServiceState)
      (user_id message language : String) (now : Int) (system_prompt : String)
      (resp : LLMResponse),
      (∀ c, service_check_repetition st.conversations user_id
        (generate_embedding env.encoded) now ≠ (true, some c)) →
      env.llm (build_conversation_context
        { st with users := get_or_create_user st.users user_id } user_id
          system_prompt ++ [⟨"user", message⟩]) = .ok resp →
      env.store_commit = .ok () →
      (process_message env st user_id message language now
        system_prompt).1 = ⟨resp.content, some false, false⟩) ∧
    (∀ (env : ServiceEnv) (st : ServiceState)
      (user_id message language : String) (now : Int) (system_prompt : String)
      (resp : LLMResponse) (e : Unit),
      (∀ c, service_check_repetition st.conversations user_id
        (generate_embedding env.encoded) now ≠ (true, some c)) →
      env.llm (build_conversation_context
        { st with users := get_or_create_user st.users user_id } user_id
          system_prompt ++ [⟨"user", message⟩]) = .ok resp →
      env.store_commit = .error e →
      (process_message env st user_id message language now
        system_prompt).1 = fallback_result) := by
  constructor
  · intro env st user_id message language now system_prompt resp hrep hllm hstore
    rcases hsc : service_check_repetition st.conversations user_id
        (generate_embedding env.encoded) now with ⟨b, o⟩
    match b, o with
    | true, some c => exact absurd hsc (hrep c)
    | true, none => simp only [process_message, hsc, hllm, hstore]
    | false, some c => simp only [process_message, hsc, hllm, hstore]
    | false, none => simp only [process_message, hsc, hllm, hstore]
  · intro env st user_id message language now system_prompt resp e hrep hllm hstore
    rcases hsc : service_check_repetition st.conversations user_id
        (generate_embedding env.encoded) now with ⟨b, o⟩
    match b, o with
    | true, some c => exact absurd hsc (hrep c)
    | true, none => simp only [process_message, hsc, hllm, hstore]
    | false, some c => simp only [process_message, hsc, hllm, hstore]
    | false, none => simp only [process_message, hsc, hllm, hstore]

/-- C6 witness: generation and store succeed while both rolling-context
commits fail; the generated content is still returned. -/
theorem process_message_persistence_vs_response_witness :
    (process_message
      ⟨.error (), fun _ => .ok ⟨"Hi there!", some 5⟩, .ok (), .error (), .error ()⟩
      ⟨[], [], [], fun _ => ⟨[], none, 10⟩⟩
      "u1" "Hello" "en" 0 "SYS").1 = ⟨"Hi there!", some false, false⟩ :=
  process_message_persistence_vs_response.1
    ⟨.error (), fun _ => .ok ⟨"Hi there!", some 5⟩, .ok (), .error (), .error ()⟩
    ⟨[], [], [], fun _ => ⟨[], none, 10⟩⟩
    "u1" "Hello" "en" 0 "SYS" ⟨"Hi there!", some 5⟩
    (fun c => by simp [service_check_repetition, generate_embedding])
    rfl rfl

/-- C10: when the repetition check reports a match, `process_message`
returns the matched turn's response immediately and the store is exactly
as before the call: no conversation appended, no memory created, the
rolling contexts untouched, and (by referential integrity — every stored
turn's user has a user row) the user upsert is a no-op. -/
theorem process_message_repetition_frame (env : ServiceEnv)
    (st : ServiceState) (user_id message language : String) (now : Int)
    (system_prompt : String) (e : List ℝ) (d : Conversation)
    (hemb : generate_embedding env.encoded = some e)
    (hene : e.isEmpty = false)
    (hmatch : SQLConversationRepository.check_repetition st.conversations
      user_id e now 0.8 30 = (true, some d))
    (hfk : ∀ c ∈ st.conversations, c.user_id ∈ st.users) :
    process_message env st user_id message language now system_prompt =
      (⟨d.response, some true, false⟩, st) := by
  have hmem := check_repetition_matched_mem hmatch
  have huser : user_id ∈ st.users := by
    rcases hmem with ⟨hd, hdu, _⟩
    have h := hfk d hd
    rwa [hdu] at h
  have hst1 : ({ st with users := get_or_create_user st.users user_id } :
      ServiceState) = st := by
    unfold get_or_create_user
    rw [if_pos huser]
  have hscr : service_check_repetition st.conversations user_id
      (generate_embedding env.encoded) now = (true, some d) := by
    rw [hemb]
    simp only [service_check_repetition, hene, Bool.false_eq_true, if_false,
      hmatch]
  simp only [process_message, hscr, hst1]

/-- C10 witness: a user with one stored turn 5 seconds old whose embedding
matches the query exactly (similarity 1 > 0.8); the call returns that
turn's stored response and leaves the store untouched. -/
theorem process_message_repetition_frame_witness :
    process_message
      ⟨.ok [[1, 0]], fun _ => .ok ⟨"generated", none⟩, .ok (), .ok (), .ok ()⟩
      ⟨["u1"], [⟨"u1", "hi", "hello there", "en", 95, some [1, 0], none, none⟩],
        [], fun _ => ⟨[], none, 10⟩⟩
      "u1" "hi again" "en" 100 "SYS" =
      (⟨"hello there", some true, false⟩,
        ⟨["u1"], [⟨"u1", "hi", "hello there", "en", 95, some [1, 0], none, none⟩],
          [], fun _ => ⟨[], none, 10⟩⟩) := by
  have hsim : (0.8 : ℝ) < cosine_similarity [1, 0] [1, 0] := by
    unfold cosine_similarity
    norm_num [dot_product, Real.sqrt_one]
  have hwin := recent_window_single
    ⟨"u1", "hi", "hello there", "en", 95, some [1, 0], none, none⟩
    "u1" (100 - 30) rfl (by norm_num)
  have hchk : cosine_similarity_checked [(1 : ℝ), 0] [1, 0] =
      .ok (cosine_similarity [1, 0] [1, 0]) :=
    cosine_similarity_checked_ok (by simp) (by simp) rfl
  have hmatch : SQLConversationRepository.check_repetition
      [⟨"u1", "hi", "hello there", "en", 95, some [1, 0], none, none⟩]
      "u1" [1, 0] 100 0.8 30 =
      (true, some ⟨"u1", "hi", "hello there", "en", 95, some [1, 0],
        none, none⟩) := by
    simp only [SQLConversationRepository.check_repetition, hwin,
      SQLConversationRepository.compare_embeddings, List.isEmpty_cons,
      Bool.false_eq_true, if_false, hchk, if_pos hsim]
  exact process_message_repetition_frame
    ⟨.ok [[1, 0]], fun _ => .ok ⟨"generated", none⟩, .ok (), .ok (), .ok ()⟩
    ⟨["u1"], [⟨"u1", "hi", "hello there", "en", 95, some [1, 0], none, none⟩],
      [], fun _ => ⟨[], none, 10⟩⟩
    "u1" "hi again" "en" 100 "SYS" [1, 0]
    ⟨"u1", "hi", "hello there", "en", 95, some [1, 0], none, none⟩
    rfl rfl hmatch
    (by
      intro c hc
      rw [List.mem_singleton] at hc
      subst hc
      exact List.mem_singleton.mpr rfl)

/-- Token sums distribute over append. -/
theorem msg_tokens_sum_append (l1 l2 : List ChatMsg) :
    msg_tokens_sum (l1 ++ l2) = msg_tokens_sum l1 + msg_tokens_sum l2 := by
  simp [msg_tokens_sum]

/-- Token sum of a cons. -/
theorem msg_tokens_sum_cons (m : ChatMsg) (l : List ChatMsg) :
    msg_tokens_sum (m :: l) = count_tokens m.content + msg_tokens_sum l := by
  simp [msg_tokens_sum]

/-- Shape of a guarded addition: either unchanged, or one message appended
whose estimated cost is charged and fits the budget. -/
def guarded_shape (st st' : List ChatMsg × Nat) : Prop :=
  st' = st ∨
    ∃ m : ChatMsg, st' = (st.1 ++ [m], st.2 + count_tokens m.content) ∧
      st.2 + count_tokens m.content ≤ max_context_tokens

/-- The budget bookkeeping facts that every guarded addition preserves. -/
theorem guarded_shape_bound {st st' : List ChatMsg × Nat}
    (h : guarded_shape st st') :
    msg_tokens_sum st'.1 + st.2 ≤ msg_tokens_sum st.1 + st'.2 ∧
    st'.2 ≤ max st.2 max_context_tokens ∧ st.2 ≤ st'.2 := by
  rcases h with rfl | ⟨m, rfl, hg⟩
  · exact ⟨le_refl _, le_max_left _ _, le_refl _⟩
  · refine ⟨?_, ?_, ?_⟩
    · rw [msg_tokens_sum_append, msg_tokens_sum_cons]
      simp [msg_tokens_sum]
      omega
    · exact le_max_of_le_right hg
    · exact Nat.le_add_right _ _

/-- The preferred-language stage is a guarded addition. -/
theorem language_stage_shape (pl : Option String) (st : List ChatMsg × Nat) :
    guarded_shape st (language_stage pl st) := by
  unfold guarded_shape
  rcases pl with _ | l
  · exact Or.inl rfl
  · simp only [language_stage]
    split_ifs with h1 h2
    · exact Or.inr ⟨⟨"system", "User's preferred language: " ++ l⟩, rfl, h2⟩
    · exact Or.inl rfl
    · exact Or.inl rfl

/-- The topics stage is a guarded addition. -/
theorem topics_stage_shape (topics : List String) (st : List ChatMsg × Nat) :
    guarded_shape st (topics_stage topics st) := by
  unfold guarded_shape
  simp only [topics_stage]
  split_ifs with h1 h2
  · exact Or.inr ⟨⟨"system", topics_text topics⟩, rfl, h2⟩
  · exact Or.inl rfl
  · exact Or.inl rfl

/-- The relevant-memories stage is a guarded addition. -/
theorem memories_stage_shape (memories : List LegacyMemory)
    (st : List ChatMsg × Nat) :
    guarded_shape st (memories_stage memories st) := by
  unfold guarded_shape
  simp only [memories_stage]
  split_ifs with h1 h2
  · exact Or.inr ⟨⟨"system",
      memories_text (ConversationDB.get_relevant_memories memories [] 5)⟩,
      rfl, h2⟩
  · exact Or.inl rfl
  · exact Or.inl rfl

/-- Budget bookkeeping of the recent-conversations fold: the estimated
cost of the collected messages is bounded by the growth of the counter,
and the counter never exceeds `max start 4000`. -/
theorem conversation_fold_bound :
    ∀ (l : List Conversation) (start : List ChatMsg × List Conversation × Nat),
      msg_tokens_sum (l.foldl conversation_fold_step start).1 + start.2.2 ≤
        msg_tokens_sum start.1 +
          (l.foldl conversation_fold_step start).2.2 ∧
      (l.foldl conversation_fold_step start).2.2 ≤
        max start.2.2 max_context_tokens ∧
      start.2.2 ≤ (l.foldl conversation_fold_step start).2.2 := by
  intro l
  induction l with
  | nil => intro start; exact ⟨le_refl _, le_max_left _ _, le_refl _⟩
  | cons c rest ih =>
    intro start
    rw [List.foldl_cons]
    by_cases hg : start.2.2 +
        (count_tokens c.message + count_tokens c.response) ≤
        max_context_tokens
    · have hstep : conversation_fold_step start c =
          (⟨"user", c.message⟩ :: ⟨"assistant", c.response⟩ :: start.1,
            start.2.1,
            start.2.2 + (count_tokens c.message + count_tokens c.response)) := by
        unfold conversation_fold_step
        rw [if_pos hg]
      rw [hstep]
      obtain ⟨ih1, ih2, ih3⟩ := ih (⟨"user", c.message⟩ ::
        ⟨"assistant", c.response⟩ :: start.1, start.2.1,
        start.2.2 + (count_tokens c.message + count_tokens c.response))
      dsimp only at ih1 ih2 ih3
      rw [msg_tokens_sum_cons, msg_tokens_sum_cons] at ih1
      dsimp only at ih1
      refine ⟨by omega, ?_, by omega⟩
      calc (rest.foldl conversation_fold_step _).2.2 ≤
          max (start.2.2 +
            (count_tokens c.message + count_tokens c.response))
            max_context_tokens := ih2
        _ ≤ max start.2.2 max_context_tokens :=
          max_le (le_max_of_le_right hg) (le_max_right _ _)
    · have hstep : conversation_fold_step start c =
          (start.1, c :: start.2.1, start.2.2) := by
        unfold conversation_fold_step
        rw [if_neg hg]
      rw [hstep]
      obtain ⟨ih1, ih2, ih3⟩ := ih (start.1, c :: start.2.1, start.2.2)
      dsimp only at ih1 ih2 ih3
      exact ⟨ih1, ih2, ih3⟩

/-- What `_summarize_and_store` can return: the degraded `("", 0)` pair,
or a pair the summarizer itself produced. -/
theorem summarize_and_store_spec (env : LegacyEnv) (user_id : String)
    (memories : List LegacyMemory) (conversations : List Conversation) :
    (summarize_and_store env user_id memories conversations).1 = ("", 0) ∨
    env.summarizer (summarization_prompt conversations) =
      .ok (summarize_and_store env user_id memories conversations).1 := by
  unfold summarize_and_store summarize_and_store_body
  rcases hs : env.summarizer (summarization_prompt conversations) with e | p
  · exact Or.inl rfl
  · rcases p with ⟨t, k⟩
    rcases hc : env.memory_commit with e | u
    · exact Or.inl rfl
    · exact Or.inr rfl

/-- C1 (amended): the estimated token total of the assembled context,
excluding the mandatory system prompt, never exceeds
`max_context_tokens`, *provided* the summarizer-reported token count of a
successful summary is at least the 4-chars-per-token estimate of the
summary message (the code budgets the summary by its reported count, not
by the estimator). -/
theorem get_conversation_context_budget (env : LegacyEnv) (st : UserState)
    (user_id : String)
    (hrep : ∀ p t k, env.summarizer p = .ok (t, k) →
      count_tokens ("Summary of previous conversations: " ++ t) ≤ k) :
    msg_tokens_sum (get_conversation_context env st user_id).1.tail ≤
      max_context_tokens := by
  have hS : count_tokens system_prompt_template = 712 := by
    rw [count_tokens, system_prompt_template_length]
  have hnil : msg_tokens_sum [] = 0 := rfl
  simp only [get_conversation_context]
  rw [hS]
  set b1 := language_stage st.preferred_language ([], 712) with hb1
  set b2 := topics_stage st.conversation_topics b1 with hb2
  set b3 := memories_stage st.memories b2 with hb3
  set recent := (st.conversations.insertionSort ts_desc).take
    (max_context_length * 2) with hrecent
  set f := recent.reverse.foldl conversation_fold_step ([], [], b3.2) with hf
  set sres := summarize_and_store env user_id st.memories f.2.1 with hsres
  have hb1s := guarded_shape_bound
    (language_stage_shape st.preferred_language ([], 712))
  rw [← hb1] at hb1s
  have hb2s := guarded_shape_bound
    (topics_stage_shape st.conversation_topics b1)
  rw [← hb2] at hb2s
  have hb3s := guarded_shape_bound (memories_stage_shape st.memories b2)
  rw [← hb3] at hb3s
  have hfs := conversation_fold_bound recent.reverse ([], [], b3.2)
  rw [← hf] at hfs
  obtain ⟨l1, m1, g1⟩ := hb1s
  obtain ⟨l2, m2, g2⟩ := hb2s
  obtain ⟨l3, m3, g3⟩ := hb3s
  obtain ⟨lf, mf, gf⟩ := hfs
  dsimp only at l1 m1 g1 l2 m2 g2 l3 m3 g3 lf mf gf
  rw [hnil] at l1 lf
  have hmax712 : max 712 max_context_tokens = 4000 := rfl
  rw [hmax712] at m1
  have hb1le : b1.2 ≤ 4000 := m1
  have hb2le : b2.2 ≤ 4000 :=
    le_trans m2 (le_of_eq (Nat.max_eq_right hb1le))
  have hb3le : b3.2 ≤ 4000 :=
    le_trans m3 (le_of_eq (Nat.max_eq_right hb2le))
  have hfle : f.2.2 ≤ 4000 :=
    le_trans mf (le_of_eq (Nat.max_eq_right hb3le))
  split_ifs with htrig hguard
  · -- summarization triggered and the summary fits by its reported count
    simp only [List.cons_append, List.tail_cons]
    rw [msg_tokens_sum_append, msg_tokens_sum_append, msg_tokens_sum_cons,
      hnil]
    dsimp only
    rcases summarize_and_store_spec env user_id st.memories f.2.1 with
      hcase | hcase
    · rw [← hsres] at hcase
      have ht : sres.1.1 = "" := by rw [hcase]
      have hk : sres.1.2 = 0 := by rw [hcase]
      rw [ht]
      have h8 : count_tokens ("Summary of previous conversations: " ++ "") =
          8 := by decide
      rw [h8]
      unfold max_context_tokens at hb1le hb2le hb3le hfle ⊢
      omega
    · rw [← hsres] at hcase
      have hest := hrep _ sres.1.1 sres.1.2 hcase
      unfold max_context_tokens at hb1le hb2le hb3le hfle hguard ⊢
      omega
  · -- summarization triggered but the summary does not fit
    simp only [List.cons_append, List.tail_cons]
    rw [msg_tokens_sum_append]
    unfold max_context_tokens at hb1le hb2le hb3le hfle ⊢
    omega
  · -- no summarization
    simp only [List.cons_append, List.tail_cons]
    rw [msg_tokens_sum_append]
    unfold max_context_tokens at hb1le hb2le hb3le hfle ⊢
    omega

/-- Length of a `String.mk`. -/
theorem string_mk_length (l : List Char) : (String.mk l).length = l.length := rfl

/-- Counterexample input for the budget claim: an 8004-character message. -/
def big_message : String := String.mk (List.replicate 8004 'a')
/-- Counterexample input: an 8000-character response. -/
def big_response : String := String.mk (List.replicate 8000 'b')
/-- Counterexample input: a 16100-character summary text. -/
def big_summary : String := String.mk (List.replicate 16100 'x')

/-- Counterexample user state: no preferences, no topics, no memories,
five oversized turns (none of which fits the budget). -/
def overflow_state : UserState :=
  ⟨none, [], [],
    [⟨"u", big_message, big_response, "en", 5, none, none, none⟩,
      ⟨"u", big_message, big_response, "en", 4, none, none, none⟩,
      ⟨"u", big_message, big_response, "en", 3, none, none, none⟩,
      ⟨"u", big_message, big_response, "en", 2, none, none, none⟩,
      ⟨"u", big_message, big_response, "en", 1, none, none, none⟩]⟩

/-- Counterexample environment: the summarizer reports a token count of 0
for its 16100-character summary. -/
def underreporting_env : LegacyEnv :=
  ⟨fun _ => .ok (big_summary, 0), .ok (), fun _ => []⟩

/-- Core of the C1 counterexample, stated for any strings of the given
estimated sizes: all five turns overflow into the summarization set, the
summary is admitted on its reported count of 0, and the resulting context
(minus the system prompt) estimates to 4033 tokens. -/
theorem budget_overflow_general (m r s : String)
    (hm : count_tokens m = 2001) (hr : count_tokens r = 2000)
    (hs : count_tokens ("Summary of previous conversations: " ++ s) = 4033) :
    max_context_tokens <
      msg_tokens_sum
        ((get_conversation_context ⟨fun _ => .ok (s, 0), .ok (), fun _ => []⟩
          ⟨none, [], [],
            [⟨"u", m, r, "en", 5, none, none, none⟩,
              ⟨"u", m, r, "en", 4, none, none, none⟩,
              ⟨"u", m, r, "en", 3, none, none, none⟩,
              ⟨"u", m, r, "en", 2, none, none, none⟩,
              ⟨"u", m, r, "en", 1, none, none, none⟩]⟩ "u").1.tail) := by
  have hS : count_tokens system_prompt_template = 712 := by
    rw [count_tokens, system_prompt_template_length]
  have hbase : memories_stage ([] : List LegacyMemory)
      (topics_stage ([] : List String)
        (language_stage none ([], (712 : Nat)))) = ([], 712) := rfl
  have hsort : ((([⟨"u", m, r, "en", 5, none, none, none⟩,
      ⟨"u", m, r, "en", 4, none, none, none⟩,
      ⟨"u", m, r, "en", 3, none, none, none⟩,
      ⟨"u", m, r, "en", 2, none, none, none⟩,
      ⟨"u", m, r, "en", 1, none, none, none⟩] :
        List Conversation).insertionSort ts_desc).take
      (max_context_length * 2)).reverse =
      [⟨"u", m, r, "en", 1, none, none, none⟩,
        ⟨"u", m, r, "en", 2, none, none, none⟩,
        ⟨"u", m, r, "en", 3, none, none, none⟩,
        ⟨"u", m, r, "en", 4, none, none, none⟩,
        ⟨"u", m, r, "en", 5, none, none, none⟩] := by
    simp [List.insertionSort, List.orderedInsert, ts_desc, max_context_length]
  have hstep : ∀ (t : Int) (acc : List Conversation),
      conversation_fold_step ([], acc, 712) ⟨"u", m, r, "en", t, none, none, none⟩ =
        ([], ⟨"u", m, r, "en", t, none, none, none⟩ :: acc, 712) := by
    intro t acc
    unfold conversation_fold_step
    rw [if_neg]
    dsimp only
    rw [hm, hr]
    decide
  have hfold : ([⟨"u", m, r, "en", 1, none, none, none⟩,
      ⟨"u", m, r, "en", 2, none, none, none⟩,
      ⟨"u", m, r, "en", 3, none, none, none⟩,
      ⟨"u", m, r, "en", 4, none, none, none⟩,
      ⟨"u", m, r, "en", 5, none, none, none⟩] :
        List Conversation).foldl conversation_fold_step ([], [], 712) =
      ([], [⟨"u", m, r, "en", 5, none, none, none⟩,
        ⟨"u", m, r, "en", 4, none, none, none⟩,
        ⟨"u", m, r, "en", 3, none, none, none⟩,
        ⟨"u", m, r, "en", 2, none, none, none⟩,
        ⟨"u", m, r, "en", 1, none, none, none⟩], 712) := by
    rw [List.foldl_cons, hstep 1 []]
    rw [List.foldl_cons, hstep 2 _]
    rw [List.foldl_cons, hstep 3 _]
    rw [List.foldl_cons, hstep 4 _]
    rw [List.foldl_cons, hstep 5 _]
    rw [List.foldl_nil]
  simp only [get_conversation_context, hS]
  rw [hbase]
  dsimp only
  rw [hsort, hfold]
  dsimp only
  rw [if_pos (by norm_num [context_summary_threshold])]
  have hsres : summarize_and_store ⟨fun _ => .ok (s, 0), .ok (), fun _ => []⟩
      "u" []
      [⟨"u", m, r, "en", 5, none, none, none⟩,
        ⟨"u", m, r, "en", 4, none, none, none⟩,
        ⟨"u", m, r, "en", 3, none, none, none⟩,
        ⟨"u", m, r, "en", 2, none, none, none⟩,
        ⟨"u", m, r, "en", 1, none, none, none⟩] =
      ((s, 0), [⟨"u", "summarization", s, (0.7 : ℝ), some [[]]⟩]) := rfl
  rw [hsres]
  dsimp only
  rw [if_pos (by norm_num [max_context_tokens])]
  simp only [List.cons_append, List.nil_append, List.tail_cons,
    List.append_nil]
  rw [msg_tokens_sum_cons]
  dsimp only
  rw [hs]
  norm_num [msg_tokens_sum, max_context_tokens]

/-- C1, counterexample: with the five oversized turns all overflowing into
the summarization set and a summary whose provider-reported token count
(0) is far below its 4-chars-per-token estimate (4033), the assembled
context minus the mandatory system prompt estimates to 4033 tokens —
strictly more than `max_context_tokens = 4000`. -/
theorem get_conversation_context_budget_counterexample :
    max_context_tokens <
      msg_tokens_sum
        ((get_conversation_context underreporting_env overflow_state
          "u").1.tail) := by
  have hm : count_tokens big_message = 2001 := by
    rw [count_tokens, big_message, string_mk_length, List.length_replicate]
  have hr : count_tokens big_response = 2000 := by
    rw [count_tokens, big_response, string_mk_length, List.length_replicate]
  have hs : count_tokens ("Summary of previous conversations: " ++ big_summary)
      = 4033 := by
    have h1 : ("Summary of previous conversations: " ++ big_summary).length
        = 16135 := by
      rw [String.length_append]
      have ha : ("Summary of previous conversations: ").length = 35 := by
        decide
      have hb : big_summary.length = 16100 := by
        rw [big_summary, string_mk_length, List.length_replicate]
      rw [ha, hb]
    rw [count_tokens, h1]
  exact budget_overflow_general big_message big_response big_summary hm hr hs

/-- C1 witness: the amended budget theorem applied to the empty user state
with a failing summarizer (whose hypothesis holds vacuously). -/
theorem get_conversation_context_budget_witness :
    msg_tokens_sum
      ((get_conversation_context ⟨fun _ => .error (), .ok (), fun _ => []⟩
        ⟨none, [], [], []⟩ "u").1.tail) ≤ max_context_tokens :=
  get_conversation_context_budget ⟨fun _ => .error (), .ok (), fun _ => []⟩
    ⟨none, [], [], []⟩ "u"
    (fun p t k h => absurd h (by simp))
